import Mathlib

/-!
Verification of the endpoint-go library: a generic HTTP endpoint
abstraction with a server pipeline (decode, validate, invoke, encode),
a client pipeline (build request, send, decode), lifecycle hooks,
an error taxonomy built on Go sentinel errors, and a response-writer
decorator that records the written status code.

The Go source is shallowly embedded: each pipeline becomes a pure Lean
function that threads the write operations performed on the HTTP
response sink and records an event trace of the hook and stage
invocations, in the order the Go code performs them.  External
collaborators (decoders, encoders, validators, the HTTP transport,
JSON marshaling) are function parameters, exactly as they are function
values in the source.
-/

namespace EndpointGo

/-! ## Go error model (errors.go)

Go errors are modelled as a tree: `errors.New` sentinels from errors.go
are dedicated constructors, `HttpError` is a structured constructor, an
arbitrary error with a message is `mk`, and
`fmt.Errorf("%w: %w", outer, inner)` is `wrap outer inner`. -/

inductive GoError where
  | errDecodeRequest
  | errEncodeRequest
  | errEncodeResponse
  | errDecodeResponse
  | httpError (status : Int) (header : List (String × String)) (body : String)
  | mk (msg : String)
  | wrap (outer inner : GoError)
deriving DecidableEq, Repr

/-- Model of `errors.Is`: an error matches a target when it equals the
target or when either operand of a `fmt.Errorf("%w: %w", _, _)` wrap
matches it (Go unwraps both wrapped errors). -/
def errorIs (e target : GoError) : Bool :=
  match e with
  | .wrap a b => decide (GoError.wrap a b = target) || errorIs a target || errorIs b target
  | other => decide (other = target)

/-- Model of `http.StatusText` for the status codes this development
evaluates; Go returns the empty string for unknown codes. -/
def statusText (code : Int) : String :=
  if code = 400 then "Bad Request"
  else if code = 404 then "Not Found"
  else if code = 500 then "Internal Server Error"
  else ""

/-- Model of the `Error()` method: sentinel messages come from the
`errors.New` calls in errors.go, `HttpError.Error` formats
"http error: %d %s: %s", and `fmt.Errorf("%w: %w", a, b)` renders as
`a.Error() ++ ": " ++ b.Error()`. -/
def GoError.message : GoError → String
  | .errDecodeRequest => "decode request"
  | .errEncodeRequest => "encode request"
  | .errEncodeResponse => "encode response"
  | .errDecodeResponse => "decode response"
  | .httpError status _ body =>
      "http error: " ++ toString status ++ " " ++ statusText status ++ ": " ++ body
  | .mk msg => msg
  | .wrap a b => a.message ++ ": " ++ b.message

theorem errorIs_refl (e : GoError) : errorIs e e = true := by
  cases e <;> simp [errorIs]

theorem errorIs_wrap_left (a b : GoError) : errorIs (GoError.wrap a b) a = true := by
  simp [errorIs, errorIs_refl]

theorem errorIs_wrap_right (a b : GoError) : errorIs (GoError.wrap a b) b = true := by
  simp [errorIs, errorIs_refl]

/-! ## Wire data (errors.go, validator file) -/

/-- A single field-level validation failure (`ValidationViolation`). -/
structure ValidationViolation where
  field : String
  message : String
deriving DecidableEq, Repr

/-- The `Details any` field of `ErrorResponse`: the default error
handler stores a string, the validation-rejection path stores the
violation list. -/
inductive Details where
  | empty
  | str (s : String)
  | violations (vs : List ValidationViolation)
deriving DecidableEq, Repr

/-- The uniform JSON error envelope (`ErrorResponse` in errors.go):
statusCode, message, path, details, timestamp (Unix seconds).  A field
the Go code does not assign keeps its zero value. -/
structure ErrorResponse where
  status : Int
  message : String
  path : String
  details : Details
  timestamp : Int
deriving DecidableEq, Repr

/-! ## The HTTP response sink

Handlers in Go interact with `http.ResponseWriter` only through
`Header().Set`, `WriteHeader` and `Write`; a sink is therefore modelled
as the list of those operations, in order.  Body chunks are either a
JSON-encoded `ErrorResponse` (written by the error handler and the
validation-rejection path), typed response data written by an encoder,
or raw bytes. -/

inductive Chunk (R : Type) where
  | errJSON (e : ErrorResponse)
  | data (d : R)
  | raw (s : String)
deriving DecidableEq, Repr

inductive WriteOp (R : Type) where
  | setHeader (name value : String)
  | writeHeader (code : Int)
  | write (chunk : Chunk R)
deriving DecidableEq, Repr

/-- The status code recorded by a `writeHeader` operation, if any. -/
def WriteOp.statusOf {R : Type} : WriteOp R → Option Int
  | .writeHeader c => some c
  | _ => none

/-- Whether an operation writes response body content. -/
def WriteOp.isBody {R : Type} : WriteOp R → Bool
  | .write _ => true
  | _ => false

/-- Number of body writes performed on a sink. -/
def bodyWrites {R : Type} (ops : List (WriteOp R)) : Nat :=
  (ops.filter WriteOp.isBody).length

/-- Number of explicit status-code writes performed on a sink. -/
def headerWrites {R : Type} (ops : List (WriteOp R)) : Nat :=
  (ops.filterMap WriteOp.statusOf).length

/-- The last status code explicitly written to a sink, defaulting to
200 when none was written. -/
def lastWrittenStatus {R : Type} (ops : List (WriteOp R)) : Int :=
  ((ops.filterMap WriteOp.statusOf).getLast?).getD 200

/-! ## Response writer decorator (responseWriter.go)

`responseWriter` wraps the sink, starts with code 200, records the most
recent `WriteHeader` argument and counts writes.  Byte counts are
abstracted to chunk counts since the embedding does not serialize. -/

structure RW where
  code : Int := 200
  written : Nat := 0
deriving DecidableEq, Repr

def RW.apply {R : Type} (rw : RW) (op : WriteOp R) : RW :=
  match op with
  | .writeHeader c => { rw with code := c }
  | .write _ => { rw with written := rw.written + 1 }
  | .setHeader _ _ => rw

def RW.applyAll {R : Type} (rw : RW) (ops : List (WriteOp R)) : RW :=
  ops.foldl RW.apply rw

/-! ## Server pipeline (server.go) -/

/-- An inbound HTTP request as the server pipeline observes it: the
decoder receives the whole request, the pipeline itself reads only
`r.URL.Path`. -/
structure HttpRequest where
  path : String
deriving DecidableEq, Repr

/-- Observable stage and hook invocations of one `ServeHTTP` call, in
order. -/
inductive SEvent where
  | beforeDecodeRequest
  | decode
  | requestDecoded
  | beforeValidation
  | validate
  | requestValidated
  | invoke
  | afterEndpoint
  | encode
  | errorHandler
  | finalizer
deriving DecidableEq, Repr

/-- The optional hook slots of `ServerHooks`.  Hooks that only observe
their arguments are recorded by presence; `BeforeDecodeRequest` may
derive a new context, `AfterEndpoint` receives the response writer and
may write to it. -/
structure ServerHooks (Ctx R : Type) where
  beforeDecodeRequest : Option (Ctx → HttpRequest → Ctx) := none
  requestDecoded : Bool := false
  beforeValidation : Bool := false
  requestValidated : Bool := false
  afterEndpoint : Option (Ctx → List (WriteOp R)) := none
  finalizer : Bool := false

/-- The `Server[T, R]` configuration.  The error handler receives the
current clock value (Go handlers may call `time.Now`), the context and
the error, and returns the operations it performs on the sink. -/
structure Server (Ctx T R : Type) where
  endpoint : Ctx → T → Except GoError R
  decoder : Ctx → HttpRequest → Except GoError T
  encoder : Ctx → R → List (WriteOp R) × Option GoError
  validator : Option (T → Bool × List ValidationViolation) := none
  errorHandler : Int → Ctx → GoError → List (WriteOp R)
  hooks : ServerHooks Ctx R := {}

/-- The default server error handler (`defaultServerErrorHandler`):
a `DecodeRequestError` yields a 400 with a fixed generic details
string; every other error yields a 500 with the error's message as the
details.  Neither branch assigns `Path`, so it stays the zero value. -/
def defaultServerErrorHandler {Ctx R : Type} (now : Int) (_ctx : Ctx) (err : GoError) :
    List (WriteOp R) :=
  if errorIs err GoError.errDecodeRequest then
    [WriteOp.setHeader "Content-Type" "application/json",
     WriteOp.writeHeader 400,
     WriteOp.write (Chunk.errJSON
       { status := 400, message := "Bad Request", path := "",
         details := Details.str "Server was unable to parse or unmarshall the request",
         timestamp := now })]
  else
    [WriteOp.setHeader "Content-Type" "application/json",
     WriteOp.writeHeader 500,
     WriteOp.write (Chunk.errJSON
       { status := 500, message := "Internal Server Error", path := "",
         details := Details.str err.message,
         timestamp := now })]

/-- The context in effect after the optional `BeforeDecodeRequest`
hook. -/
def ctxAfterBeforeDecode {Ctx T R : Type} (s : Server Ctx T R) (ctx : Ctx)
    (r : HttpRequest) : Ctx :=
  match s.hooks.beforeDecodeRequest with
  | some f => f ctx r
  | none => ctx

/-- The endpoint-invocation, after-endpoint and encode stages of
`ServeHTTP` (lines after validation).  Returns the sink operations, the
events and the errors handed to the error handler. -/
def invokeStage {Ctx T R : Type} (s : Server Ctx T R) (ctx : Ctx) (now : Int)
    (req : T) (ev : List SEvent) :
    List (WriteOp R) × List SEvent × List GoError :=
  match s.endpoint ctx req with
  | .error e =>
      (s.errorHandler now ctx e, ev ++ [SEvent.invoke, SEvent.errorHandler], [e])
  | .ok resp =>
      let afterOps := match s.hooks.afterEndpoint with
        | some f => f ctx
        | none => []
      let evA := ev ++ [SEvent.invoke]
        ++ (match s.hooks.afterEndpoint with | some _ => [SEvent.afterEndpoint] | none => [])
      let enc := s.encoder ctx resp
      match enc.2 with
      | some e =>
          let we := GoError.wrap GoError.errEncodeResponse e
          (afterOps ++ enc.1 ++ s.errorHandler now ctx we,
           evA ++ [SEvent.encode, SEvent.errorHandler], [we])
      | none => (afterOps ++ enc.1, evA ++ [SEvent.encode], [])

/-- The body of `Server.ServeHTTP` (everything except the deferred
finalizer): hook before decode, decode (wrapping failures as
`ErrDecodeRequest` for the error handler), after-decode hook, optional
validation with its hooks and the direct 400 write on rejection, then
the invoke and encode stages. -/
def serveBody {Ctx T R : Type} (s : Server Ctx T R) (ctx0 : Ctx) (r : HttpRequest)
    (now : Int) : List (WriteOp R) × List SEvent × List GoError :=
  let hookEv : List SEvent := match s.hooks.beforeDecodeRequest with
    | some _ => [SEvent.beforeDecodeRequest]
    | none => []
  let ctx := ctxAfterBeforeDecode s ctx0 r
  match s.decoder ctx r with
  | .error e =>
      let de := GoError.wrap GoError.errDecodeRequest e
      (s.errorHandler now ctx de, hookEv ++ [SEvent.decode, SEvent.errorHandler], [de])
  | .ok req =>
      let ev1 := hookEv ++ [SEvent.decode]
        ++ (if s.hooks.requestDecoded then [SEvent.requestDecoded] else [])
      match s.validator with
      | some v =>
          let ev2 := ev1 ++ (if s.hooks.beforeValidation then [SEvent.beforeValidation] else [])
          let res := v req
          let ev3 := ev2 ++ [SEvent.validate]
            ++ (if s.hooks.requestValidated then [SEvent.requestValidated] else [])
          if res.1 then
            invokeStage s ctx now req ev3
          else
            ([WriteOp.setHeader "Content-Type" "application/json",
              WriteOp.writeHeader 400,
              WriteOp.write (Chunk.errJSON
                { status := 400, message := "Bad Request", path := r.path,
                  details := Details.violations res.2, timestamp := now })],
             ev3, [])
      | none => invokeStage s ctx now req ev1

/-- Result of one `ServeHTTP` call: the operations applied to the
underlying sink, the event trace, the errors handed to the error
handler and the status codes handed to the finalizer. -/
structure ServerResult (R : Type) where
  ops : List (WriteOp R)
  events : List SEvent
  errorHandlerCalls : List GoError
  finalizerCalls : List Int
deriving Repr

/-- `Server.ServeHTTP`: when a finalizer is registered the sink is
wrapped in the response-writer decorator and the deferred finalizer
fires last with the decorator's recorded code; otherwise writes go to
the sink unwrapped and no finalizer fires. -/
def serveHTTP {Ctx T R : Type} (s : Server Ctx T R) (ctx0 : Ctx) (r : HttpRequest)
    (now : Int) : ServerResult R :=
  let b := serveBody s ctx0 r now
  if s.hooks.finalizer then
    let rw : RW := RW.applyAll {} b.1
    { ops := b.1, events := b.2.1 ++ [SEvent.finalizer],
      errorHandlerCalls := b.2.2, finalizerCalls := [rw.code] }
  else
    { ops := b.1, events := b.2.1,
      errorHandlerCalls := b.2.2, finalizerCalls := [] }

/-! ## Helper lemmas -/

theorem mem_optList {α : Type} (x y : α) (b : Bool) :
    x ∈ (if b then [y] else ([] : List α)) ↔ b = true ∧ x = y := by
  cases b <;> simp

theorem getLast_getD_cons {α : Type} (c d : α) (l : List α) :
    ((c :: l).getLast?).getD d = (l.getLast?).getD c := by
  induction l generalizing c d with
  | nil => rfl
  | cons x xs ih => rw [List.getLast?_cons_cons, ih x d, ih x c]

/-- The decorator's recorded code after a sequence of writes is the
last explicitly written status, defaulting to the initial code. -/
theorem RW_applyAll_code {R : Type} (ops : List (WriteOp R)) (rw : RW) :
    (RW.applyAll rw ops).code = ((ops.filterMap WriteOp.statusOf).getLast?).getD rw.code := by
  induction ops generalizing rw with
  | nil => rfl
  | cons op rest ih =>
      cases op with
      | writeHeader c =>
          show (RW.applyAll { rw with code := c } rest).code = _
          rw [ih]
          simp [WriteOp.statusOf, getLast_getD_cons]
      | write chunk =>
          show (RW.applyAll { rw with written := rw.written + 1 } rest).code = _
          rw [ih]
          simp [WriteOp.statusOf]
      | setHeader n v =>
          show (RW.applyAll rw rest).code = _
          rw [ih]
          simp [WriteOp.statusOf]

/-- C1: on request-decode failure the error handler receives the wrapped
`ErrDecodeRequest` error exactly once, the wrapped error matches both the
sentinel and the underlying cause, the endpoint and encoder never run,
and (with the default error handler) exactly one response is written. -/
theorem decode_failure_short_circuits {Ctx T R : Type} (s : Server Ctx T R)
    (ctx0 : Ctx) (r : HttpRequest) (now : Int) (e : GoError)
    (hdec : s.decoder (ctxAfterBeforeDecode s ctx0 r) r = Except.error e)
    (hdef : s.errorHandler = @defaultServerErrorHandler Ctx R) :
    (serveHTTP s ctx0 r now).errorHandlerCalls = [GoError.wrap GoError.errDecodeRequest e]
    ∧ errorIs (GoError.wrap GoError.errDecodeRequest e) GoError.errDecodeRequest = true
    ∧ errorIs (GoError.wrap GoError.errDecodeRequest e) e = true
    ∧ SEvent.invoke ∉ (serveHTTP s ctx0 r now).events
    ∧ SEvent.encode ∉ (serveHTTP s ctx0 r now).events
    ∧ bodyWrites (serveHTTP s ctx0 r now).ops = 1
    ∧ headerWrites (serveHTTP s ctx0 r now).ops = 1 := by
  cases hb : s.hooks.beforeDecodeRequest <;>
  simp only [ctxAfterBeforeDecode, hb] at hdec <;>
  refine ⟨?_, errorIs_wrap_left _ _, errorIs_wrap_right _ _, ?_, ?_, ?_, ?_⟩ <;>
  cases hfin : s.hooks.finalizer <;>
  simp [serveHTTP, serveBody, ctxAfterBeforeDecode, hb, hfin, hdec, hdef,
    defaultServerErrorHandler, errorIs_wrap_left, bodyWrites, headerWrites,
    WriteOp.isBody, WriteOp.statusOf]

/-- C2: when the validator rejects, the sink receives exactly the
structured 400 response carrying the violations and the request path,
the endpoint never runs and the error handler is not called. -/
theorem validation_rejection_writes_400 {Ctx T R : Type} (s : Server Ctx T R)
    (ctx0 : Ctx) (r : HttpRequest) (now : Int)
    (v : T → Bool × List ValidationViolation) (req : T) (vs : List ValidationViolation)
    (hval : s.validator = some v)
    (hdec : s.decoder (ctxAfterBeforeDecode s ctx0 r) r = Except.ok req)
    (hv : v req = (false, vs)) :
    (serveHTTP s ctx0 r now).ops =
      [WriteOp.setHeader "Content-Type" "application/json",
       WriteOp.writeHeader 400,
       WriteOp.write (Chunk.errJSON
         { status := 400, message := "Bad Request", path := r.path,
           details := Details.violations vs, timestamp := now })]
    ∧ SEvent.invoke ∉ (serveHTTP s ctx0 r now).events
    ∧ (serveHTTP s ctx0 r now).errorHandlerCalls = [] := by
  cases hb : s.hooks.beforeDecodeRequest <;>
  simp only [ctxAfterBeforeDecode, hb] at hdec <;>
  refine ⟨?_, ?_, ?_⟩ <;>
  cases hfin : s.hooks.finalizer <;>
  cases hrd : s.hooks.requestDecoded <;>
  cases hbv : s.hooks.beforeValidation <;>
  cases hrv : s.hooks.requestValidated <;>
  simp [serveHTTP, serveBody, ctxAfterBeforeDecode, hb, hfin, hrd, hbv, hrv,
    hval, hdec, hv]

/-- C3: for a successful call with every hook registered and a
validator configured, the observed order is exactly before-decode,
decode, after-decode, before-validate, validate, after-validate,
endpoint invocation, after-invoke, encode, completion. -/
theorem server_hook_ordering {Ctx T R : Type} (s : Server Ctx T R) (ctx0 : Ctx)
    (r : HttpRequest) (now : Int) (f : Ctx → HttpRequest → Ctx)
    (g : Ctx → List (WriteOp R)) (v : T → Bool × List ValidationViolation)
    (req : T) (vs : List ValidationViolation) (resp : R) (encOps : List (WriteOp R))
    (hb : s.hooks.beforeDecodeRequest = some f)
    (hrd : s.hooks.requestDecoded = true)
    (hbv : s.hooks.beforeValidation = true)
    (hrv : s.hooks.requestValidated = true)
    (hae : s.hooks.afterEndpoint = some g)
    (hfin : s.hooks.finalizer = true)
    (hval : s.validator = some v)
    (hdec : s.decoder (f ctx0 r) r = Except.ok req)
    (hv : v req = (true, vs))
    (hend : s.endpoint (f ctx0 r) req = Except.ok resp)
    (henc : s.encoder (f ctx0 r) resp = (encOps, none)) :
    (serveHTTP s ctx0 r now).events =
      [SEvent.beforeDecodeRequest, SEvent.decode, SEvent.requestDecoded,
       SEvent.beforeValidation, SEvent.validate, SEvent.requestValidated,
       SEvent.invoke, SEvent.afterEndpoint, SEvent.encode, SEvent.finalizer] := by
  simp [serveHTTP, serveBody, invokeStage, ctxAfterBeforeDecode, hb, hrd, hbv, hrv,
    hae, hfin, hval, hdec, hv, hend, henc]

/-- C4: with a finalizer registered, the finalizer fires exactly once
per call, on every path, with the last status code written to the sink
(200 when none was written). -/
theorem finalizer_fires_once_with_last_status {Ctx T R : Type} (s : Server Ctx T R)
    (ctx0 : Ctx) (r : HttpRequest) (now : Int)
    (hfin : s.hooks.finalizer = true) :
    (serveHTTP s ctx0 r now).finalizerCalls
      = [lastWrittenStatus (serveHTTP s ctx0 r now).ops] := by
  simp [serveHTTP, hfin, lastWrittenStatus, RW_applyAll_code]

/-- C5: the default error handler answers a `DecodeRequestError` with
the fixed 400 envelope and any other error with a 500 envelope whose
details field is the error's message; both use the uniform
`ErrorResponse` envelope. -/
theorem default_error_handler_policy {Ctx R : Type} (now : Int) (ctx : Ctx)
    (err : GoError) :
    (errorIs err GoError.errDecodeRequest = true →
      @defaultServerErrorHandler Ctx R now ctx err =
        [WriteOp.setHeader "Content-Type" "application/json",
         WriteOp.writeHeader 400,
         WriteOp.write (Chunk.errJSON
           { status := 400, message := "Bad Request", path := "",
             details := Details.str "Server was unable to parse or unmarshall the request",
             timestamp := now })])
    ∧ (errorIs err GoError.errDecodeRequest = false →
      @defaultServerErrorHandler Ctx R now ctx err =
        [WriteOp.setHeader "Content-Type" "application/json",
         WriteOp.writeHeader 500,
         WriteOp.write (Chunk.errJSON
           { status := 500, message := "Internal Server Error", path := "",
             details := Details.str err.message,
             timestamp := now })]) := by
  constructor <;> intro h <;> simp [defaultServerErrorHandler, h]

/-! ## Concrete server instances for the witnesses -/

/-- A server whose decoder always fails. -/
def wServerC1 : Server Unit Nat Nat where
  endpoint := fun _ n => Except.ok n
  decoder := fun _ _ => Except.error (GoError.mk "bad json")
  encoder := fun _ n => ([WriteOp.write (Chunk.data n)], none)
  errorHandler := defaultServerErrorHandler

theorem decode_failure_short_circuits_witness :
    (serveHTTP wServerC1 () { path := "/w" } 7).errorHandlerCalls
        = [GoError.wrap GoError.errDecodeRequest (GoError.mk "bad json")]
    ∧ errorIs (GoError.wrap GoError.errDecodeRequest (GoError.mk "bad json"))
        GoError.errDecodeRequest = true
    ∧ errorIs (GoError.wrap GoError.errDecodeRequest (GoError.mk "bad json"))
        (GoError.mk "bad json") = true
    ∧ SEvent.invoke ∉ (serveHTTP wServerC1 () { path := "/w" } 7).events
    ∧ SEvent.encode ∉ (serveHTTP wServerC1 () { path := "/w" } 7).events
    ∧ bodyWrites (serveHTTP wServerC1 () { path := "/w" } 7).ops = 1
    ∧ headerWrites (serveHTTP wServerC1 () { path := "/w" } 7).ops = 1 :=
  decode_failure_short_circuits wServerC1 () { path := "/w" } 7 (GoError.mk "bad json")
    rfl rfl

/-- A server whose validator rejects every request with one violation. -/
def wServerC2 : Server Unit Nat Nat where
  endpoint := fun _ n => Except.ok n
  decoder := fun _ _ => Except.ok 3
  encoder := fun _ n => ([WriteOp.write (Chunk.data n)], none)
  validator := some (fun _ => (false, [{ field := "name", message := "required" }]))
  errorHandler := defaultServerErrorHandler

theorem validation_rejection_writes_400_witness :
    (serveHTTP wServerC2 () { path := "/orders" } 7).ops =
      [WriteOp.setHeader "Content-Type" "application/json",
       WriteOp.writeHeader 400,
       WriteOp.write (Chunk.errJSON
         { status := 400, message := "Bad Request", path := "/orders",
           details := Details.violations [{ field := "name", message := "required" }],
           timestamp := 7 })]
    ∧ SEvent.invoke ∉ (serveHTTP wServerC2 () { path := "/orders" } 7).events
    ∧ (serveHTTP wServerC2 () { path := "/orders" } 7).errorHandlerCalls = [] :=
  validation_rejection_writes_400 wServerC2 () { path := "/orders" } 7
    (fun _ => (false, [{ field := "name", message := "required" }])) 3
    [{ field := "name", message := "required" }] rfl rfl rfl

/-- A server with every hook registered, an accepting validator and a
succeeding endpoint and encoder. -/
def wServerC3 : Server Unit Nat Nat where
  endpoint := fun _ n => Except.ok (n + 1)
  decoder := fun _ _ => Except.ok 3
  encoder := fun _ n => ([WriteOp.writeHeader 200, WriteOp.write (Chunk.data n)], none)
  validator := some (fun _ => (true, []))
  errorHandler := defaultServerErrorHandler
  hooks :=
    { beforeDecodeRequest := some (fun c _ => c)
      requestDecoded := true
      beforeValidation := true
      requestValidated := true
      afterEndpoint := some (fun _ => [])
      finalizer := true }

theorem server_hook_ordering_witness :
    (serveHTTP wServerC3 () { path := "/w" } 7).events =
      [SEvent.beforeDecodeRequest, SEvent.decode, SEvent.requestDecoded,
       SEvent.beforeValidation, SEvent.validate, SEvent.requestValidated,
       SEvent.invoke, SEvent.afterEndpoint, SEvent.encode, SEvent.finalizer] :=
  server_hook_ordering wServerC3 () { path := "/w" } 7 (fun c _ => c) (fun _ => [])
    (fun _ => (true, [])) 3 [] 4 [WriteOp.writeHeader 200, WriteOp.write (Chunk.data 4)]
    rfl rfl rfl rfl rfl rfl rfl rfl rfl rfl rfl

/-- A server with a finalizer and an endpoint that fails, so the default
error handler writes a 500. -/
def wServerC4 : Server Unit Nat Nat where
  endpoint := fun _ _ => Except.error (GoError.mk "boom")
  decoder := fun _ _ => Except.ok 3
  encoder := fun _ n => ([WriteOp.writeHeader 200, WriteOp.write (Chunk.data n)], none)
  errorHandler := defaultServerErrorHandler
  hooks := { finalizer := true }

theorem finalizer_fires_once_with_last_status_witness :
    (serveHTTP wServerC4 () { path := "/w" } 7).finalizerCalls
      = [lastWrittenStatus (serveHTTP wServerC4 () { path := "/w" } 7).ops] :=
  finalizer_fires_once_with_last_status wServerC4 () { path := "/w" } 7 rfl

theorem default_error_handler_policy_witness :
    @defaultServerErrorHandler Unit Nat 7 ()
        (GoError.wrap GoError.errDecodeRequest (GoError.mk "boom")) =
      [WriteOp.setHeader "Content-Type" "application/json",
       WriteOp.writeHeader 400,
       WriteOp.write (Chunk.errJSON
         { status := 400, message := "Bad Request", path := "",
           details := Details.str "Server was unable to parse or unmarshall the request",
           timestamp := 7 })]
    ∧ @defaultServerErrorHandler Unit Nat 7 () (GoError.mk "boom") =
      [WriteOp.setHeader "Content-Type" "application/json",
       WriteOp.writeHeader 500,
       WriteOp.write (Chunk.errJSON
         { status := 500, message := "Internal Server Error", path := "",
           details := Details.str "boom", timestamp := 7 })] :=
  ⟨(default_error_handler_policy 7 ()
      (GoError.wrap GoError.errDecodeRequest (GoError.mk "boom"))).1 (by decide),
   (default_error_handler_policy 7 () (GoError.mk "boom")).2 (by decide)⟩

/-! ## Client pipeline (client.go)

An outbound HTTP request as the client builds it; an HTTP response as
the transport returns it.  Response bodies are byte strings. -/

structure ClientRequest where
  method : String
  url : String
  header : List (String × String) := []
  body : String := ""
deriving DecidableEq, Repr

structure HttpResponse where
  statusCode : Int
  header : List (String × String) := []
  body : String := ""
deriving DecidableEq, Repr

/-- Observable stage and hook invocations of one client endpoint call,
in order. -/
inductive CEvent where
  | beforePrepareRequest
  | buildRequest
  | requestPrepared
  | beforeSendRequest
  | send
  | responseReceived
  | decode
  | onError
  | responseDecoded
  | finalizer
deriving DecidableEq, Repr

/-- The optional hook slots of `ClientHooks`.  Observation-only hooks
are recorded by presence; `RequestPrepared` and `ResponseReceived` may
derive a new context. -/
structure ClientHooks (Ctx : Type) where
  beforePrepareRequest : Bool := false
  requestPrepared : Option (Ctx → ClientRequest → Ctx) := none
  beforeSendRequest : Bool := false
  responseReceived : Option (Ctx → HttpResponse → Ctx) := none
  responseDecoded : Bool := false
  finalizer : Bool := false
  onError : Bool := false

/-- The `Client[T, R]` configuration: the `HttpClient.Do` transport
capability, the request builder and the response decoder. -/
structure Client (Ctx T R : Type) where
  doFn : Ctx → ClientRequest → Except GoError HttpResponse
  reqBuilder : Ctx → T → Except GoError ClientRequest
  decoder : Ctx → HttpResponse → Except GoError R
  hooks : ClientHooks Ctx := {}

/-- The context after the optional `RequestPrepared` hook. -/
def ctxAfterPrepared {Ctx T R : Type} (c : Client Ctx T R) (ctx : Ctx)
    (req : ClientRequest) : Ctx :=
  match c.hooks.requestPrepared with
  | some f => f ctx req
  | none => ctx

/-- The context after the optional `ResponseReceived` hook. -/
def ctxAfterReceived {Ctx T R : Type} (c : Client Ctx T R) (ctx : Ctx)
    (resp : HttpResponse) : Ctx :=
  match c.hooks.responseReceived with
  | some f => f ctx resp
  | none => ctx

/-- Intermediate result of the body of `Client.Endpoint` before the
deferred finalizer: returned value (the zero value `default` models
Go's `var zero R` on error paths), returned error, the `statusCode`
variable at return time, the event trace and the errors handed to the
`OnError` hook. -/
structure ClientBody (R : Type) where
  value : R
  error : Option GoError
  statusCode : Int
  events : List CEvent
  onErrorCalls : List GoError

/-- Result of one client endpoint call. -/
structure ClientResult (R : Type) where
  value : R
  error : Option GoError
  events : List CEvent
  finalizerCalls : List (Int × Option GoError)
  onErrorCalls : List GoError

/-- The body of the function returned by `Client.Endpoint`: before-prepare
hook, request build, request-prepared hook, before-send hook, transport
dispatch (`statusCode` stays 0 when no response is received), response-
received hook, decode (wrapping failures as `ErrDecodeResponse` and
reporting them to `OnError` before returning), response-decoded hook. -/
def clientBody {Ctx T R : Type} [Inhabited R] (c : Client Ctx T R) (ctx : Ctx)
    (t : T) : ClientBody R :=
  let ev0 : List CEvent :=
    if c.hooks.beforePrepareRequest then [CEvent.beforePrepareRequest] else []
  match c.reqBuilder ctx t with
  | .error e =>
      { value := default, error := some e, statusCode := 0,
        events := ev0 ++ [CEvent.buildRequest], onErrorCalls := [] }
  | .ok req =>
      let ctx1 := ctxAfterPrepared c ctx req
      let ev1 := ev0 ++ [CEvent.buildRequest]
        ++ (match c.hooks.requestPrepared with
            | some _ => [CEvent.requestPrepared] | none => [])
        ++ (if c.hooks.beforeSendRequest then [CEvent.beforeSendRequest] else [])
      match c.doFn ctx1 req with
      | .error e =>
          { value := default, error := some e, statusCode := 0,
            events := ev1 ++ [CEvent.send], onErrorCalls := [] }
      | .ok resp =>
          let ctx2 := ctxAfterReceived c ctx1 resp
          let ev2 := ev1 ++ [CEvent.send]
            ++ (match c.hooks.responseReceived with
                | some _ => [CEvent.responseReceived] | none => [])
          match c.decoder ctx2 resp with
          | .error e =>
              let we := GoError.wrap GoError.errDecodeResponse e
              { value := default, error := some we, statusCode := resp.statusCode,
                events := ev2 ++ [CEvent.decode]
                  ++ (if c.hooks.onError then [CEvent.onError] else []),
                onErrorCalls := if c.hooks.onError then [we] else [] }
          | .ok response =>
              { value := response, error := none, statusCode := resp.statusCode,
                events := ev2 ++ [CEvent.decode]
                  ++ (if c.hooks.responseDecoded then [CEvent.responseDecoded] else []),
                onErrorCalls := [] }

/-- The function returned by `Client.Endpoint`: runs the body and, when
a finalizer is registered, fires it last (the Go code defers it) with
the final `statusCode` and `err` variables. -/
def clientEndpoint {Ctx T R : Type} [Inhabited R] (c : Client Ctx T R) (ctx : Ctx)
    (t : T) : ClientResult R :=
  let b := clientBody c ctx t
  if c.hooks.finalizer then
    { value := b.value, error := b.error,
      events := b.events ++ [CEvent.finalizer],
      finalizerCalls := [(b.statusCode, b.error)],
      onErrorCalls := b.onErrorCalls }
  else
    { value := b.value, error := b.error, events := b.events,
      finalizerCalls := [], onErrorCalls := b.onErrorCalls }

/-- C6: when the transport returns an error and no response, the client
returns the zero value with exactly that error, the decoder and the
response-received hook never run, and a registered finalizer receives
status 0 with that same error. -/
theorem transport_error_short_circuits {Ctx T R : Type} [Inhabited R]
    (c : Client Ctx T R) (ctx : Ctx) (t : T) (req : ClientRequest) (e : GoError)
    (hbuild : c.reqBuilder ctx t = Except.ok req)
    (hdo : c.doFn (ctxAfterPrepared c ctx req) req = Except.error e) :
    (clientEndpoint c ctx t).value = default
    ∧ (clientEndpoint c ctx t).error = some e
    ∧ CEvent.decode ∉ (clientEndpoint c ctx t).events
    ∧ CEvent.responseReceived ∉ (clientEndpoint c ctx t).events
    ∧ (clientEndpoint c ctx t).finalizerCalls
        = (if c.hooks.finalizer then [(0, some e)] else [])
    ∧ (clientEndpoint c ctx t).onErrorCalls = [] := by
  cases hrp : c.hooks.requestPrepared <;>
  simp only [ctxAfterPrepared, hrp] at hdo <;>
  refine ⟨?_, ?_, ?_, ?_, ?_, ?_⟩ <;>
  cases hfin : c.hooks.finalizer <;>
  cases hbp : c.hooks.beforePrepareRequest <;>
  cases hbs : c.hooks.beforeSendRequest <;>
  simp [clientEndpoint, clientBody, ctxAfterPrepared, hrp, hfin, hbp, hbs,
    hbuild, hdo]

/-- C7: when the response decoder fails, the error returned to the
caller is the decoder's error wrapped as `ErrDecodeResponse`, a
registered `OnError` hook receives exactly that wrapped error during the
call, and the wrapped error is returned (with the zero value) whether or
not the hook is registered. -/
theorem decode_response_error_wrapped {Ctx T R : Type} [Inhabited R]
    (c : Client Ctx T R) (ctx : Ctx) (t : T) (req : ClientRequest)
    (resp : HttpResponse) (e : GoError)
    (hbuild : c.reqBuilder ctx t = Except.ok req)
    (hdo : c.doFn (ctxAfterPrepared c ctx req) req = Except.ok resp)
    (hdec : c.decoder (ctxAfterReceived c (ctxAfterPrepared c ctx req) resp) resp
      = Except.error e) :
    (clientEndpoint c ctx t).error = some (GoError.wrap GoError.errDecodeResponse e)
    ∧ errorIs (GoError.wrap GoError.errDecodeResponse e) GoError.errDecodeResponse = true
    ∧ errorIs (GoError.wrap GoError.errDecodeResponse e) e = true
    ∧ (clientEndpoint c ctx t).value = default
    ∧ (clientEndpoint c ctx t).onErrorCalls
        = (if c.hooks.onError then [GoError.wrap GoError.errDecodeResponse e] else []) := by
  cases hrp : c.hooks.requestPrepared <;>
  simp only [ctxAfterPrepared, hrp] at hdo hdec <;>
  cases hrr : c.hooks.responseReceived <;>
  simp only [ctxAfterReceived, hrr] at hdec <;>
  refine ⟨?_, errorIs_wrap_left _ _, errorIs_wrap_right _ _, ?_, ?_⟩ <;>
  cases hfin : c.hooks.finalizer <;>
  simp [clientEndpoint, clientBody, ctxAfterPrepared, ctxAfterReceived, hrp, hrr,
    hfin, hbuild, hdo, hdec]

/-- `DecodeJSONResponse`: for a 2xx status the body is unmarshalled by
the JSON collaborator (which yields the decoded value and an optional
error, matching `json.Decoder.Decode` writing into `var data R`); for
any other status the zero value is returned together with an `HttpError`
carrying the status, headers and raw body. -/
def decodeJSONResponse {R : Type} [Inhabited R]
    (jsonUnmarshal : String → R × Option GoError) (resp : HttpResponse) :
    R × Option GoError :=
  if 200 ≤ resp.statusCode ∧ resp.statusCode ≤ 299 then
    jsonUnmarshal resp.body
  else
    (default, some (GoError.httpError resp.statusCode resp.header resp.body))

/-- C8: for any non-2xx response, `DecodeJSONResponse` returns the zero
value and an `HttpError` with exactly the response's status, headers and
raw body, for every JSON unmarshaller — i.e. without unmarshalling. -/
theorem decode_json_response_non_2xx {R : Type} [Inhabited R]
    (jsonUnmarshal : String → R × Option GoError) (resp : HttpResponse)
    (h : resp.statusCode < 200 ∨ 299 < resp.statusCode) :
    decodeJSONResponse jsonUnmarshal resp
      = (default, some (GoError.httpError resp.statusCode resp.header resp.body)) := by
  have hno : ¬(200 ≤ resp.statusCode ∧ resp.statusCode ≤ 299) := by omega
  simp [decodeJSONResponse, hno]

/-! ## Concrete client instances for the witnesses -/

/-- A client whose transport double fails with a network error. -/
def wClientC6 : Client Unit Nat Nat where
  doFn := fun _ _ => Except.error (GoError.mk "connection refused")
  reqBuilder := fun _ n => Except.ok { method := "GET", url := "/n", body := toString n }
  decoder := fun _ _ => Except.ok 1
  hooks := { finalizer := true }

theorem transport_error_short_circuits_witness :
    (clientEndpoint wClientC6 () 5).value = default
    ∧ (clientEndpoint wClientC6 () 5).error = some (GoError.mk "connection refused")
    ∧ CEvent.decode ∉ (clientEndpoint wClientC6 () 5).events
    ∧ CEvent.responseReceived ∉ (clientEndpoint wClientC6 () 5).events
    ∧ (clientEndpoint wClientC6 () 5).finalizerCalls
        = (if wClientC6.hooks.finalizer then [(0, some (GoError.mk "connection refused"))] else [])
    ∧ (clientEndpoint wClientC6 () 5).onErrorCalls = [] :=
  transport_error_short_circuits wClientC6 () 5
    { method := "GET", url := "/n", body := "5" } (GoError.mk "connection refused")
    rfl rfl

/-- A client whose transport double answers 200 but whose decoder
fails. -/
def wClientC7 : Client Unit Nat Nat where
  doFn := fun _ _ => Except.ok { statusCode := 200, body := "garbage" }
  reqBuilder := fun _ n => Except.ok { method := "GET", url := "/n", body := toString n }
  decoder := fun _ _ => Except.error (GoError.mk "invalid character g")
  hooks := { onError := true }

theorem decode_response_error_wrapped_witness :
    (clientEndpoint wClientC7 () 5).error
        = some (GoError.wrap GoError.errDecodeResponse (GoError.mk "invalid character g"))
    ∧ errorIs (GoError.wrap GoError.errDecodeResponse (GoError.mk "invalid character g"))
        GoError.errDecodeResponse = true
    ∧ errorIs (GoError.wrap GoError.errDecodeResponse (GoError.mk "invalid character g"))
        (GoError.mk "invalid character g") = true
    ∧ (clientEndpoint wClientC7 () 5).value = default
    ∧ (clientEndpoint wClientC7 () 5).onErrorCalls
        = (if wClientC7.hooks.onError
           then [GoError.wrap GoError.errDecodeResponse (GoError.mk "invalid character g")]
           else []) :=
  decode_response_error_wrapped wClientC7 () 5
    { method := "GET", url := "/n", body := "5" } { statusCode := 200, body := "garbage" }
    (GoError.mk "invalid character g") rfl rfl rfl

theorem decode_json_response_non_2xx_witness :
    decodeJSONResponse (R := Nat) (fun _ => (0, none))
        { statusCode := 404, header := [("Content-Type", "application/json")],
          body := "\x7b\"err\":\"missing\"\x7d" }
      = (default, some (GoError.httpError 404 [("Content-Type", "application/json")]
          "\x7b\"err\":\"missing\"\x7d")) :=
  decode_json_response_non_2xx (fun _ => (0, none))
    { statusCode := 404, header := [("Content-Type", "application/json")],
      body := "\x7b\"err\":\"missing\"\x7d" }
    (by decide)

/-! ## Legacy traced client (the earlier Client draft with `traceEnabled`)

This draft registers an `httptrace.ClientTrace` on the context when
tracing is enabled and prints a `TraceInfo` at call end.  The trace
callbacks only record wall-clock timestamps into local duration
variables, so the duration fields are abstracted as 0 here; the
context transformation performed by `httptrace.WithClientTrace` is the
parameter `wct` of `legacyEndpoint`. -/

structure TraceInfo where
  method : String
  url : String
  statusCode : Int
  error : Option GoError
  dnsLookup : Int := 0
  connectionTime : Int := 0
  tlsHandshake : Int := 0
  serverTime : Int := 0
  totalTime : Int := 0
  connectionReused : Bool := false
  connectionIdle : Bool := false
deriving Repr

/-- The legacy `Client` configuration: transport, request builder,
decoder, the `RequestPrepared` and `ResponseReceived` hook slices, the
`errFunc` slot (never read by `Endpoint`) and the tracing flag. -/
structure LegacyClient (Ctx T R : Type) where
  doFn : Ctx → ClientRequest → Except GoError HttpResponse
  reqBuilder : Ctx → T → Except GoError ClientRequest
  decoder : Ctx → HttpResponse → Except GoError R
  requestPrepared : List (Ctx → ClientRequest → Ctx) := []
  responseReceived : List (Ctx → HttpResponse → Ctx) := []
  errFunc : Ctx → GoError → Unit := fun _ _ => ()
  traceEnabled : Bool := false

/-- Result of one legacy client call: the returned pair plus the trace
record handed to the sink (`fmt.Println`), if any. -/
structure LegacyResult (R : Type) where
  value : R
  error : Option GoError
  trace : Option TraceInfo

/-- Threading a context through a slice of hooks, as the legacy
endpoint's `for` loops do. -/
def foldCtx {Ctx A : Type} (fns : List (Ctx → A → Ctx)) (a : A) (ctx : Ctx) : Ctx :=
  fns.foldl (fun cx fn => fn cx a) ctx

/-- The function returned by the legacy `Client.Endpoint`: build the
request, install the client trace on the context when tracing is
enabled, run the request-prepared hooks, dispatch, run the
response-received hooks, decode, and finally emit the `TraceInfo`
(whose `Error` field is the `err` variable, always nil at that point)
when tracing is enabled. -/
def legacyEndpoint {Ctx T R : Type} [Inhabited R] (wct : Ctx → Ctx)
    (c : LegacyClient Ctx T R) (ctx0 : Ctx) (t : T) : LegacyResult R :=
  match c.reqBuilder ctx0 t with
  | .error e => { value := default, error := some e, trace := none }
  | .ok req =>
      let ctx1 := if c.traceEnabled then wct ctx0 else ctx0
      let ctx2 := foldCtx c.requestPrepared req ctx1
      match c.doFn ctx2 req with
      | .error e => { value := default, error := some e, trace := none }
      | .ok resp =>
          let ctx3 := foldCtx c.responseReceived resp ctx2
          match c.decoder ctx3 resp with
          | .error e => { value := default, error := some e, trace := none }
          | .ok response =>
              if c.traceEnabled then
                { value := response, error := none,
                  trace := some { method := req.method, url := req.url,
                                  statusCode := resp.statusCode, error := none } }
              else
                { value := response, error := none, trace := none }

theorem foldCtx_comm {Ctx A : Type} (wct : Ctx → Ctx) (fns : List (Ctx → A → Ctx))
    (a : A) (h : ∀ fn ∈ fns, ∀ cx x, fn (wct cx) x = wct (fn cx x)) (ctx : Ctx) :
    foldCtx fns a (wct ctx) = wct (foldCtx fns a ctx) := by
  induction fns generalizing ctx with
  | nil => rfl
  | cons fn rest ih =>
      show foldCtx rest a (fn (wct ctx) a) = wct (foldCtx rest a (fn ctx a))
      rw [h fn (by simp) ctx a]
      exact ih (fun g hg cx x => h g (by simp [hg]) cx x) (fn ctx a)

/-- C9: enabling tracing never changes the returned value or error.
The hypotheses pin the same inputs and transport behavior: each hook,
the transport and the decoder are insensitive to the trace registration
`wct` on the context. -/
theorem trace_does_not_change_result {Ctx T R : Type} [Inhabited R]
    (wct : Ctx → Ctx) (c : LegacyClient Ctx T R) (ctx : Ctx) (t : T)
    (hp : ∀ fn ∈ c.requestPrepared, ∀ cx q, fn (wct cx) q = wct (fn cx q))
    (hr : ∀ fn ∈ c.responseReceived, ∀ cx resp, fn (wct cx) resp = wct (fn cx resp))
    (hdo : ∀ cx q, c.doFn (wct cx) q = c.doFn cx q)
    (hdec : ∀ cx resp, c.decoder (wct cx) resp = c.decoder cx resp) :
    (legacyEndpoint wct { c with traceEnabled := true } ctx t).value
      = (legacyEndpoint wct { c with traceEnabled := false } ctx t).value
    ∧ (legacyEndpoint wct { c with traceEnabled := true } ctx t).error
      = (legacyEndpoint wct { c with traceEnabled := false } ctx t).error := by
  cases hrb : c.reqBuilder ctx t with
  | error e => simp [legacyEndpoint, hrb]
  | ok req =>
      have h2 : foldCtx c.requestPrepared req (wct ctx)
          = wct (foldCtx c.requestPrepared req ctx) := foldCtx_comm wct _ req hp ctx
      have hdo2 : c.doFn (foldCtx c.requestPrepared req (wct ctx)) req
          = c.doFn (foldCtx c.requestPrepared req ctx) req := by rw [h2, hdo]
      cases hdoRes : c.doFn (foldCtx c.requestPrepared req ctx) req with
      | error e => simp [legacyEndpoint, hrb, hdo2, hdoRes]
      | ok resp =>
          have h3 : foldCtx c.responseReceived resp (foldCtx c.requestPrepared req (wct ctx))
              = wct (foldCtx c.responseReceived resp (foldCtx c.requestPrepared req ctx)) := by
            rw [h2]
            exact foldCtx_comm wct _ resp hr _
          have hdec2 : c.decoder
                (foldCtx c.responseReceived resp (foldCtx c.requestPrepared req (wct ctx))) resp
              = c.decoder
                (foldCtx c.responseReceived resp (foldCtx c.requestPrepared req ctx)) resp := by
            rw [h3, hdec]
          cases hdecRes : c.decoder
              (foldCtx c.responseReceived resp (foldCtx c.requestPrepared req ctx)) resp with
          | error e => simp [legacyEndpoint, hrb, hdo2, hdoRes, hdec2, hdecRes]
          | ok response => simp [legacyEndpoint, hrb, hdo2, hdoRes, hdec2, hdecRes]

/-- A legacy client with one context-shifting request-prepared hook and
a constant transport double. -/
def wLegacyC9 : LegacyClient Nat Nat Nat where
  doFn := fun _ _ => Except.ok { statusCode := 200, body := "ok" }
  reqBuilder := fun _ _ => Except.ok { method := "GET", url := "/u" }
  decoder := fun _ _ => Except.ok 42
  requestPrepared := [fun cx _ => cx + 2]

theorem trace_does_not_change_result_witness :
    (legacyEndpoint (fun n => n + 1) { wLegacyC9 with traceEnabled := true } 0 3).value
      = (legacyEndpoint (fun n => n + 1) { wLegacyC9 with traceEnabled := false } 0 3).value
    ∧ (legacyEndpoint (fun n => n + 1) { wLegacyC9 with traceEnabled := true } 0 3).error
      = (legacyEndpoint (fun n => n + 1) { wLegacyC9 with traceEnabled := false } 0 3).error :=
  trace_does_not_change_result (fun n => n + 1) wLegacyC9 0 3
    (by intro fn hfn cx q; simp [wLegacyC9] at hfn; subst hfn
        show cx + 1 + 2 = cx + 2 + 1; omega)
    (by intro fn hfn cx resp; simp [wLegacyC9] at hfn)
    (fun _ _ => rfl) (fun _ _ => rfl)

/-! ## Draft response encoders (the early server draft)

`EncodeJSONResponse` and `EncodeXMLResponse` of the early draft each
set their content type and then encode with `json.NewEncoder`; the XML
variant never touches the XML marshaller.  `json.Encoder.Encode`
marshals first and writes only on success, so a marshalling failure
writes no body. -/

def EncodeJSONResponseV0 {R : Type} (jsonMarshal : R → Except GoError String)
    (data : R) : List (WriteOp R) × Option GoError :=
  match jsonMarshal data with
  | .ok s =>
      ([WriteOp.setHeader "Content-Type" "application/json",
        WriteOp.write (Chunk.raw s)], none)
  | .error e => ([WriteOp.setHeader "Content-Type" "application/json"], some e)

def EncodeXMLResponse {R : Type} (jsonMarshal _xmlMarshal : R → Except GoError String)
    (data : R) : List (WriteOp R) × Option GoError :=
  match jsonMarshal data with
  | .ok s =>
      ([WriteOp.setHeader "Content-Type" "application/xml",
        WriteOp.write (Chunk.raw s)], none)
  | .error e => ([WriteOp.setHeader "Content-Type" "application/xml"], some e)

/-- C10: `EncodeXMLResponse` advertises `application/xml` but writes
byte-for-byte the body `EncodeJSONResponseV0` writes (and reports the
same error), for every JSON and XML marshaller. -/
theorem xml_encoder_writes_json_body {R : Type}
    (jsonMarshal xmlMarshal : R → Except GoError String) (data : R) :
    (EncodeXMLResponse jsonMarshal xmlMarshal data).1.filter WriteOp.isBody
      = (EncodeJSONResponseV0 jsonMarshal data).1.filter WriteOp.isBody
    ∧ (EncodeXMLResponse jsonMarshal xmlMarshal data).2
      = (EncodeJSONResponseV0 jsonMarshal data).2
    ∧ (EncodeXMLResponse jsonMarshal xmlMarshal data).1.head?
      = some (WriteOp.setHeader "Content-Type" "application/xml") := by
  cases h : jsonMarshal data <;>
  simp [EncodeXMLResponse, EncodeJSONResponseV0, h, WriteOp.isBody, List.filter]

end EndpointGo
